import Mathlib

/-!
Shallow embedding of the synthetic-data generator in `populate_db.py`
(customer data integration system) together with proofs about the
properties its specification states.

Modelling conventions:
* Python's global `random` module is modelled as an explicit `Rng` state
  (an abstract stream of naturals plus a position); seeding fixes the
  stream, every draw consumes one position.  The individual draws
  (`random.choice`, `random.randint`, `random.choices`, `random.uniform`)
  are modelled as deterministic functions of that state which always
  return a value of the sampled population / range, so theorems
  quantified over the stream cover every possible randomisation.
* Monetary values are exact rationals; `round(x, 2)` is `round2`.
  Every value reaching a rounding site in the program is an exact
  multiple of 1/100, so the tie-breaking convention is immaterial.
* `datetime.utcnow()` is modelled as an explicit clock argument `now`;
  dates are day offsets from the order window start.
* Fallible operations (`random.choice` on an arbitrary list,
  `random.choices`) return `Except String`; draws from non-empty literal
  lists use the total `choiceNE`/`choiceMem`.
-/

set_option maxRecDepth 4096

/-- Abstract random-generator state: a fixed stream of draws plus a cursor.
`random.seed(42)` fixes `stream`; each primitive draw advances `pos`. -/
structure Rng where
  stream : Nat → Nat
  pos : Nat

def Rng.peek (r : Rng) : Nat := r.stream r.pos

def Rng.advance (r : Rng) : Rng := ⟨r.stream, r.pos + 1⟩

/-- The all-zero draw stream, used for concrete evaluations. -/
def zeroRng : Rng := ⟨fun _ => 0, 0⟩

/-- `random.randint(lo, hi)`: uniform integer in `[lo, hi]` (inclusive). -/
def randint (lo hi : Nat) (r : Rng) : Nat × Rng :=
  (lo + r.peek % (hi - lo + 1), r.advance)

/-- `round(q, 2)`: round a rational to two decimal places. -/
def round2 (q : ℚ) : ℚ := ((⌊q * 100 + 1/2⌋ : ℤ) : ℚ) / 100

/-- `random.uniform(lo, hi)`: a rational drawn from `[lo, hi]`. -/
def uniformQ (lo hi : ℚ) (r : Rng) : ℚ × Rng :=
  (lo + (hi - lo) * ((r.peek % 1000 : ℕ) : ℚ) / 1000, r.advance)

/-- `random.choice(l)`: raises on an empty sequence, otherwise returns an
element of `l` selected by the draw. -/
def choice {α : Type _} (l : List α) (r : Rng) : Except String (α × Rng) :=
  match l with
  | [] => Except.error "choice: empty sequence"
  | a :: rest =>
      Except.ok ((a :: rest).get ⟨r.peek % (a :: rest).length,
        Nat.mod_lt _ (Nat.succ_pos _)⟩, r.advance)

/-- `random.choice(l)` specialised to a list known to be non-empty
(the literal catalogues of the source can never raise). -/
def choiceNE {α : Type _} (l : List α) (h : l ≠ []) (r : Rng) : α × Rng :=
  (l.get ⟨r.peek % l.length, Nat.mod_lt _ (List.length_pos.mpr h)⟩, r.advance)

/-- As `choiceNE`, but also returning the membership fact. -/
def choiceMem {α : Type _} (l : List α) (h : l ≠ []) (r : Rng) :
    {a : α // a ∈ l} × Rng :=
  (⟨l.get ⟨r.peek % l.length, Nat.mod_lt _ (List.length_pos.mpr h)⟩,
    List.get_mem l _ _⟩, r.advance)

/-- Walk a population and a weight list, consuming `k` units of cumulative
weight; returns the element whose weight bucket contains `k`. -/
def pickW {α : Type _} : List α → List Nat → Nat → Option α
  | [], _, _ => none
  | _ :: _, [], _ => none
  | a :: as, w :: ws, k => if k < w then some a else pickW as ws (k - w)

def choicesErr : String := "choices: empty or zero-weight population"

/-- `random.choices(l, weights=w, k=1)[0]`: weighted draw with replacement;
raises when the population is empty (total weight zero). -/
def choicesW {α : Type _} (l : List α) (w : List Nat) (r : Rng) :
    Except String (α × Rng) :=
  if w.sum = 0 then Except.error choicesErr
  else
    match pickW l w (r.peek % w.sum) with
    | some a => Except.ok (a, r.advance)
    | none => Except.error choicesErr

/-! ## Record types (the dictionaries built by the generators) -/

structure Product where
  product_id : Nat
  product_name : String
  price : ℚ
  stock_quantity : Nat
  source_system : String
  created_at : Nat
  deriving DecidableEq, Repr

/-- A `Product` with the wall-clock field removed. -/
structure ProductCore where
  product_id : Nat
  product_name : String
  price : ℚ
  stock_quantity : Nat
  source_system : String
  deriving DecidableEq, Repr

def stripProduct (p : Product) : ProductCore :=
  ⟨p.product_id, p.product_name, p.price, p.stock_quantity, p.source_system⟩

structure Customer where
  customer_id : Nat
  first_name : String
  last_name : String
  email : String
  phone : String
  address_line1 : String
  address_line2 : String
  city : String
  country : String
  created_at : Nat
  deriving DecidableEq, Repr

/-- A `Customer` with the wall-clock field removed. -/
structure CustomerCore where
  customer_id : Nat
  first_name : String
  last_name : String
  email : String
  phone : String
  address_line1 : String
  address_line2 : String
  city : String
  country : String
  deriving DecidableEq, Repr

def stripCustomer (c : Customer) : CustomerCore :=
  ⟨c.customer_id, c.first_name, c.last_name, c.email, c.phone,
   c.address_line1, c.address_line2, c.city, c.country⟩

structure Order where
  order_id : Nat
  customer_id : Nat
  order_date : Nat
  total_amount : Option ℚ
  deriving DecidableEq, Repr

structure OrderItem where
  order_item_id : Nat
  order_id : Nat
  product_id : Nat
  quantity : Nat
  unit_price : ℚ
  subtotal : ℚ
  deriving DecidableEq, Repr

/-! ## Product synthesizer (`generate_product`) -/

def PRODUCT_CATALOG_SEEDS : List (String × List String) :=
  [("Electronics", ["Smart TV 43\"", "Smartphone Model X", "Bluetooth Speaker", "Laptop Slim"]),
   ("Grocery", ["Maize Flour 2kg", "Basmati Rice 5kg", "Sugar 2kg", "Milk 1L"]),
   ("Furniture", ["Dining Table", "Office Chair", "Sofa 3-seater", "Coffee Table"]),
   ("Clothing", ["Kitenge Dress", "Safari Boot", "School Uniform", "Sports Jersey"]),
   ("Beverages", ["Coca-Cola 500ml", "Mineral Water 1L", "Tusker Lager 500ml", "Juice 1L"])]

def SOURCE_SYSTEMS : List String := ["CSV", "API"]

def DESCRIPTORS : List String :=
  ["Classic", "Pro", "2024 Edition", "Limited", "Value", "Deluxe", "Mini"]

theorem catalog_names_ne : ∀ s ∈ PRODUCT_CATALOG_SEEDS, s.2 ≠ [] := by decide

/-- `generate_product(product_id)`; `now` is the `datetime.utcnow()` clock. -/
def generate_product (product_id : Nat) (now : Nat) (r : Rng) : Product × Rng :=
  let s := choiceMem PRODUCT_CATALOG_SEEDS (by decide) r
  let b := choiceNE s.1.val.2 (catalog_names_ne s.1.val s.1.property) s.2
  let d := choiceNE DESCRIPTORS (by decide) b.2
  let product_name := b.1 ++ " " ++ d.1
  let p := uniformQ 50 10000 d.2
  let price := round2 p.1
  let q := randint 0 500 p.2
  let src := choiceNE SOURCE_SYSTEMS (by decide) q.2
  ({product_id := product_id, product_name := product_name, price := price,
    stock_quantity := q.1, source_system := src.1, created_at := now}, src.2)

/-- The comprehension `[generate_product(pid) for pid in range(1, n + 1)]`,
with the ambient rng threaded through. -/
def generateProductsAux (now : Nat) : Nat → Nat → Rng → List Product × Rng
  | 0, _, r => ([], r)
  | count + 1, pid, r =>
      let p := generate_product pid now r
      let rest := generateProductsAux now count (pid + 1) p.2
      (p.1 :: rest.1, rest.2)

def generateProducts (n : Nat) (now : Nat) (r : Rng) : List Product × Rng :=
  generateProductsAux now n 1 r

/-- Product synthesis for an arbitrary integer target count: Python's
`range(1, n + 1)` is empty for `n ≤ 0`, so no record is produced. -/
def productSynthesis (n : Int) (now : Nat) (r : Rng) : List Product × Rng :=
  generateProducts n.toNat now r

/-! ## Decimal rendering (Python's `str` on a non-negative integer) -/

/-- Decimal digits of `n`, most significant first; `fuel ≥ n` suffices.
Structural recursion on `fuel` keeps the definition kernel-reducible. -/
def natDecimalAux : Nat → Nat → List Char
  | 0, _ => []
  | fuel + 1, n =>
      if n < 10 then [Nat.digitChar n]
      else natDecimalAux fuel (n / 10) ++ [Nat.digitChar (n % 10)]

/-- `str(n)` as a character list: decimal, most significant digit first,
no leading zeros. -/
def natDecimal (n : Nat) : List Char := natDecimalAux n n

/-- `str(n)` as a string. -/
def natStr (n : Nat) : String := String.mk (natDecimal n)

/-- `s.lower()`: Python's per-character lower-casing. -/
def lowerStr (s : String) : String := String.mk (s.data.map Char.toLower)

/-! ## Customer synthesizer (`generate_customer`) -/

def KENYAN_ESTATES : List (String × List String) :=
  [("Nairobi", ["Kileleshwa", "Karen", "Umoja", "Embakasi", "South B", "Lavington", "Rongai"]),
   ("Mombasa", ["Kizingo", "Nyali", "Likoni", "Shanzu", "Bamburi"]),
   ("Kisumu", ["Nyalenda", "Milimani", "Manyatta", "Nyamasaria"]),
   ("Nakuru", ["Section 58", "Kiamunyi", "Naka", "Barut"]),
   ("Kiambu", ["Ruiru", "Thika Road", "Kahawa Sukari", "Githurai"]),
   ("Machakos", ["Kalulini", "Mlolongo", "Syokimau", "Athi River"]),
   ("Kajiado", ["Kitengela", "Ongata Rongai", "Ngong", "Isinya"]),
   ("Uasin Gishu", ["Elgon View", "Kapseret", "Pioneer"]),
   ("Kericho", ["Kapsoit", "Ainamoi", "Kipkelion"])]

def DEFAULT_ESTATES : List String := ["CBD", "Main Street", "Market Area"]

/-- `KENYAN_ESTATES.get(county, DEFAULT_ESTATES)`. -/
def estatesFor (county : String) : List String :=
  match KENYAN_ESTATES.find? (fun kv => kv.1 == county) with
  | some kv => kv.2
  | none => DEFAULT_ESTATES

theorem estate_values_ne : ∀ kv ∈ KENYAN_ESTATES, kv.2 ≠ [] := by decide

theorem estatesFor_ne (county : String) : estatesFor county ≠ [] := by
  unfold estatesFor
  cases h : KENYAN_ESTATES.find? (fun kv => kv.1 == county) with
  | none => decide
  | some kv => exact estate_values_ne kv (List.mem_of_find?_eq_some h)

def POSTAL_CODES : List String :=
  ["00100", "20100", "40100", "80100", "30100", "90100", "70100", "50100", "60100"]

/-- The eight `str(random.randint(0, 9))` draws of the phone body, joined. -/
def randDigits : Nat → Rng → List Char × Rng
  | 0, r => ([], r)
  | k + 1, r =>
      let d := randint 0 9 r
      let rest := randDigits k d.2
      (Nat.digitChar d.1 :: rest.1, rest.2)

/-- `generate_kenyan_phone()`. -/
def generate_kenyan_phone (r : Rng) : String × Rng :=
  let p := choiceNE ["07", "01"] (by decide) r
  let ds := randDigits 8 p.2
  (p.1 ++ String.mk ds.1, ds.2)

/-- Modelled from the spec: the key set of `county_name_mapping` from the
external `name_generator` module, which is not part of the sources.  The
spec describes a region→name mapping whose keys are the supported regions;
we take them to be the nine regions with configured localities. -/
def county_name_mapping_keys : List String :=
  ["Nairobi", "Mombasa", "Kisumu", "Nakuru", "Kiambu", "Machakos",
   "Kajiado", "Uasin Gishu", "Kericho"]

/-- `generate_customer(customer_id)`.  The region-conditioned name provider
(`generate_county_based_name`, an external collaborator) is an injected
dependency: given the county and the rng state it returns a
(first name, last name) pair and the advanced rng state. -/
def generate_customer (provider : String → Rng → (String × String) × Rng)
    (customer_id : Nat) (now : Nat) (r : Rng) : Customer × Rng :=
  let co := choiceNE county_name_mapping_keys (by decide) r
  let county := co.1
  let person := provider county co.2
  let first_name := person.1.1
  let last_name := person.1.2
  let es := choiceNE (estatesFor county) (estatesFor_ne county) person.2
  let estate_name := es.1
  let email_local := lowerStr first_name ++ "." ++ lowerStr last_name
  let email := email_local ++ natStr customer_id ++ "@example.com"
  let ph := generate_kenyan_phone es.2
  let pc := choiceNE POSTAL_CODES (by decide) ph.2
  let address_line1 := estate_name ++ ", " ++ county
  let bx := randint 100 9999 pc.2
  let address_line2 := "P.O. Box " ++ natStr bx.1 ++ "-" ++ pc.1 ++ ", " ++ county
  ({customer_id := customer_id, first_name := first_name, last_name := last_name,
    email := email, phone := ph.1, address_line1 := address_line1,
    address_line2 := address_line2, city := county, country := "Kenya",
    created_at := now}, bx.2)

/-- `[generate_customer(cid) for cid in range(1, n + 1)]`. -/
def generateCustomersAux (provider : String → Rng → (String × String) × Rng)
    (now : Nat) : Nat → Nat → Rng → List Customer × Rng
  | 0, _, r => ([], r)
  | count + 1, cid, r =>
      let c := generate_customer provider cid now r
      let rest := generateCustomersAux provider now count (cid + 1) c.2
      (c.1 :: rest.1, rest.2)

def generateCustomers (provider : String → Rng → (String × String) × Rng)
    (n : Nat) (now : Nat) (r : Rng) : List Customer × Rng :=
  generateCustomersAux provider now n 1 r

/-! ## Order / OrderItem synthesizer (`generate_orders_and_items`) -/

/-- `(datetime(2025, 10, 30) - datetime(2022, 1, 1)).days + 1`. -/
def totalDays : Nat := 1399

/-- The weight list built by the `for pid in product_ids` loop:
weight 3 for the staple tier (`pid <= 400`), weight 1 otherwise. -/
def mkWeights : List Nat → List Nat
  | [] => []
  | pid :: rest => (if pid ≤ 400 then 3 else 1) :: mkWeights rest

/-- The order-skeleton loop body for `count` further orders starting at
id `oid`: a uniformly random customer and a uniformly random day in the
window per order; `total_amount` starts as `None`. -/
def ordersPassAux (customer_ids : List Nat) :
    Nat → Nat → Rng → Except String (List Order × Rng)
  | 0, _, r => Except.ok ([], r)
  | count + 1, oid, r =>
      match choice customer_ids r with
      | Except.error e => Except.error e
      | Except.ok (cid, r) =>
          let d := randint 0 (totalDays - 1) r
          match ordersPassAux customer_ids count (oid + 1) d.2 with
          | Except.error e => Except.error e
          | Except.ok (os, r') =>
              Except.ok ({order_id := oid, customer_id := cid,
                          order_date := d.1, total_amount := none} :: os, r')

/-- `for oid in range(1, num_orders + 1)` of the source. -/
def ordersPass (customer_ids : List Nat) (num_orders : Nat) (r : Rng) :
    Except String (List Order × Rng) :=
  ordersPassAux customer_ids num_orders 1 r

/-- The orders generated before the first item draw of a run (used to
describe where in the procedure a failure occurs). -/
def skeletonOrders (customer_ids : List Nat) (num_orders : Nat) (r : Rng) :
    Option (List Order) :=
  (ordersPass customer_ids num_orders r).toOption.map (·.1)

/-- The mandatory item pass: one weighted-random item per order, ids
continuing the sequential counter `item_id`. -/
def mandatoryPass (product_ids weights : List Nat) :
    List Order → Nat → Rng → Except String (List OrderItem × Nat × Rng)
  | [], item_id, r => Except.ok ([], item_id, r)
  | o :: os, item_id, r =>
      match choicesW product_ids weights r with
      | Except.error e => Except.error e
      | Except.ok (pid, r) =>
          let q := randint 1 5 r
          let up := uniformQ 50 10000 q.2
          let unit_price := round2 up.1
          let subtotal := round2 (unit_price * q.1)
          match mandatoryPass product_ids weights os (item_id + 1) up.2 with
          | Except.error e => Except.error e
          | Except.ok (its, item_id', r') =>
              Except.ok ({order_item_id := item_id, order_id := o.order_id,
                          product_id := pid, quantity := q.1,
                          unit_price := unit_price, subtotal := subtotal} :: its,
                         item_id', r')

/-- The fill pass: `remaining` extra items, each attached to a uniformly
random existing order. -/
def fillPass (product_ids weights : List Nat) (orders : List Order) :
    Nat → Nat → Rng → Except String (List OrderItem × Nat × Rng)
  | 0, item_id, r => Except.ok ([], item_id, r)
  | rem + 1, item_id, r =>
      match choice orders r with
      | Except.error e => Except.error e
      | Except.ok (o, r) =>
          match choicesW product_ids weights r with
          | Except.error e => Except.error e
          | Except.ok (pid, r) =>
              let q := randint 1 5 r
              let up := uniformQ 50 10000 q.2
              let unit_price := round2 up.1
              let subtotal := round2 (unit_price * q.1)
              match fillPass product_ids weights orders rem (item_id + 1) up.2 with
              | Except.error e => Except.error e
              | Except.ok (its, item_id', r') =>
                  Except.ok ({order_item_id := item_id, order_id := o.order_id,
                              product_id := pid, quantity := q.1,
                              unit_price := unit_price, subtotal := subtotal} :: its,
                             item_id', r')

/-- The `totals` dictionary lookup for one order: the running float sum of
the subtotals of the items referencing it, rounded to 2dp; a `KeyError`
if no item references the order. -/
def orderTotal (items : List OrderItem) (o : Order) : Except String ℚ :=
  let subs := (items.filter fun oi => oi.order_id == o.order_id).map (·.subtotal)
  if subs.isEmpty then Except.error "KeyError"
  else Except.ok (round2 subs.sum)

/-- The reconciliation loop: write the rounded per-order sums back into
`total_amount`. -/
def reconcileAll (items : List OrderItem) : List Order → Except String (List Order)
  | [] => Except.ok []
  | o :: os =>
      match orderTotal items o with
      | Except.error e => Except.error e
      | Except.ok t =>
          match reconcileAll items os with
          | Except.error e => Except.error e
          | Except.ok os' => Except.ok ({o with total_amount := some t} :: os')

/-- `generate_orders_and_items(customer_ids, product_ids, num_orders,
num_items)`.  Returns the reconciled orders and the order items; the final
rng state is dropped (nothing after this call draws randomness). -/
def generate_orders_and_items (customer_ids product_ids : List Nat)
    (num_orders num_items : Nat) (r : Rng) :
    Except String (List Order × List OrderItem) :=
  let weights := mkWeights product_ids
  match ordersPass customer_ids num_orders r with
  | Except.error e => Except.error e
  | Except.ok (orders, r) =>
      match mandatoryPass product_ids weights orders 1 r with
      | Except.error e => Except.error e
      | Except.ok (mits, item_id, r) =>
          match fillPass product_ids weights orders (num_items - mits.length) item_id r with
          | Except.error e => Except.error e
          | Except.ok (fits, _, _) =>
              let order_items := mits ++ fits
              match reconcileAll order_items orders with
              | Except.error e => Except.error e
              | Except.ok orders' => Except.ok (orders', order_items)

/-- The same procedure with the weight vector passed explicitly, as the
spec words it ("a weighted draw with replacement using exactly this
vector" for both the mandatory and the fill pass). -/
def generateWithWeights (customer_ids product_ids weights : List Nat)
    (num_orders num_items : Nat) (r : Rng) :
    Except String (List Order × List OrderItem) :=
  match ordersPass customer_ids num_orders r with
  | Except.error e => Except.error e
  | Except.ok (orders, r) =>
      match mandatoryPass product_ids weights orders 1 r with
      | Except.error e => Except.error e
      | Except.ok (mits, item_id, r) =>
          match fillPass product_ids weights orders (num_items - mits.length) item_id r with
          | Except.error e => Except.error e
          | Except.ok (fits, _, _) =>
              let order_items := mits ++ fits
              match reconcileAll order_items orders with
              | Except.error e => Except.error e
              | Except.ok orders' => Except.ok (orders', order_items)

/-! ## The pipeline (`main`) and the database sink -/

/-- One batch quadruple as produced by a full generation run. -/
structure RunBatches where
  products : List Product
  customers : List Customer
  orders : List Order
  order_items : List OrderItem
  deriving DecidableEq, Repr

/-- The generation part of `main()`: products, then customers, then orders
and items over the freshly generated id lists, all drawing from the one
seeded rng stream; `now` is the wall clock. -/
def pipeline (provider : String → Rng → (String × String) × Rng)
    (numRecords : Nat) (now : Nat) (stream : Nat → Nat) :
    Except String RunBatches :=
  let r : Rng := ⟨stream, 0⟩
  let ps := generateProducts numRecords now r
  let product_ids := ps.1.map (·.product_id)
  let cs := generateCustomers provider numRecords now ps.2
  let customer_ids := cs.1.map (·.customer_id)
  match generate_orders_and_items customer_ids product_ids numRecords numRecords cs.2 with
  | Except.error e => Except.error e
  | Except.ok (orders, order_items) =>
      Except.ok {products := ps.1, customers := cs.1,
                 orders := orders, order_items := order_items}

/-- A run with the two wall-clock fields projected away. -/
structure StrippedBatches where
  products : List ProductCore
  customers : List CustomerCore
  orders : List Order
  order_items : List OrderItem
  deriving DecidableEq, Repr

def stripRun (x : Except String RunBatches) : Option StrippedBatches :=
  x.toOption.map fun b =>
    {products := b.products.map stripProduct,
     customers := b.customers.map stripCustomer,
     orders := b.orders, order_items := b.order_items}

/-- The database state: the four tables. -/
structure DB where
  customers : List Customer
  products : List Product
  orders : List Order
  order_items : List OrderItem
  deriving DecidableEq, Repr

/-- `TRUNCATE TABLE order_items, orders, customers, products ... CASCADE`. -/
def clear_tables (_db : DB) : DB :=
  {customers := [], products := [], orders := [], order_items := []}

/-- `INSERT ... ON CONFLICT DO NOTHING`: append each row unless a row with
the same primary key is already present. -/
def insertOrSkip {α : Type _} (key : α → Nat) (table : List α) (rows : List α) :
    List α :=
  rows.foldl (fun t row => if t.any (fun x => key x == key row) then t else t ++ [row]) table

/-- The sink-facing part of `main()`: create tables (no modelled effect),
truncate everything, then bulk-insert the four freshly generated batches. -/
def mainPersist (db : DB) (b : RunBatches) : DB :=
  let db := clear_tables db
  let db := {db with products := insertOrSkip (·.product_id) db.products b.products}
  let db := {db with customers := insertOrSkip (·.customer_id) db.customers b.customers}
  let db := {db with orders := insertOrSkip (·.order_id) db.orders b.orders}
  {db with order_items := insertOrSkip (·.order_item_id) db.order_items b.order_items}

/-! ## Lemmas about the random primitives -/

theorem choice_ok_mem {α : Type _} {l : List α} {r : Rng} {a : α} {r' : Rng}
    (h : choice l r = Except.ok (a, r')) : a ∈ l := by
  cases l with
  | nil => exact absurd h (by simp [choice])
  | cons x xs =>
      simp only [choice, Except.ok.injEq, Prod.mk.injEq] at h
      exact h.1 ▸ List.get_mem _ _ _

theorem choice_ok_of_ne {α : Type _} {l : List α} (h : l ≠ []) (r : Rng) :
    ∃ a r', choice l r = Except.ok (a, r') := by
  cases l with
  | nil => exact absurd rfl h
  | cons x xs => exact ⟨_, _, rfl⟩

theorem pickW_mem {α : Type _} : ∀ {l : List α} {w : List Nat} {k : Nat} {a : α},
    pickW l w k = some a → a ∈ l
  | [], _, _, _, h => by simp [pickW] at h
  | _ :: _, [], _, _, h => by simp [pickW] at h
  | x :: xs, v :: vs, k, a, h => by
      by_cases hk : k < v
      · simp only [pickW, if_pos hk, Option.some.injEq] at h
        exact h ▸ List.mem_cons_self _ _
      · simp only [pickW, if_neg hk] at h
        exact List.mem_cons_of_mem _ (pickW_mem h)

theorem choicesW_ok_mem {α : Type _} {l : List α} {w : List Nat} {r : Rng}
    {a : α} {r' : Rng} (h : choicesW l w r = Except.ok (a, r')) : a ∈ l := by
  unfold choicesW at h
  split at h
  · exact absurd h (by simp)
  · split at h
    next x heq =>
      simp only [Except.ok.injEq, Prod.mk.injEq] at h
      exact h.1 ▸ pickW_mem heq
    next => exact absurd h (by simp)

/-! ## Lemmas about the order-skeleton pass -/

theorem ordersPassAux_ok_ids {cids : List Nat} :
    ∀ {count oid : Nat} {r : Rng} {os : List Order} {r' : Rng},
    ordersPassAux cids count oid r = Except.ok (os, r') →
    os.map (·.order_id) = List.range' oid count := by
  intro count
  induction count with
  | zero =>
      intro oid r os r' h
      simp only [ordersPassAux, Except.ok.injEq, Prod.mk.injEq] at h
      simp [← h.1]
  | succ n ih =>
      intro oid r os r' h
      simp only [ordersPassAux] at h
      split at h
      · exact absurd h (by simp)
      · split at h
        · exact absurd h (by simp)
        · next os0 r0 heq =>
            simp only [Except.ok.injEq, Prod.mk.injEq] at h
            rw [← h.1, List.map_cons, ih heq, List.range'_succ]

theorem ordersPassAux_ok_of_ne {cids : List Nat} (hc : cids ≠ []) :
    ∀ (count oid : Nat) (r : Rng), ∃ os r',
    ordersPassAux cids count oid r = Except.ok (os, r') := by
  intro count
  induction count with
  | zero => exact fun oid r => ⟨[], r, rfl⟩
  | succ n ih =>
      intro oid r
      obtain ⟨cid, r1, hc1⟩ := choice_ok_of_ne hc r
      obtain ⟨os, r', hrec⟩ := ih (oid + 1) (randint 0 (totalDays - 1) r1).2
      refine ⟨{order_id := oid, customer_id := cid,
               order_date := (randint 0 (totalDays - 1) r1).1,
               total_amount := none} :: os, r', ?_⟩
      simp only [ordersPassAux, hc1, hrec]

/-! ## Lemmas about the item passes and the reconciliation -/

theorem mandatoryPass_ok {pids ws : List Nat} :
    ∀ {os : List Order} {iid : Nat} {r : Rng} {its : List OrderItem}
      {iid' : Nat} {r' : Rng},
    mandatoryPass pids ws os iid r = Except.ok (its, iid', r') →
    its.map (·.order_item_id) = List.range' iid os.length ∧
    iid' = iid + os.length ∧
    its.map (·.order_id) = os.map (·.order_id) ∧
    ∀ oi ∈ its, oi.product_id ∈ pids ∧
      oi.subtotal = round2 (oi.unit_price * oi.quantity) := by
  intro os
  induction os with
  | nil =>
      intro iid r its iid' r' h
      simp only [mandatoryPass, Except.ok.injEq, Prod.mk.injEq] at h
      obtain ⟨h1, h2, h3⟩ := h
      subst h1; subst h2
      simp
  | cons o rest ih =>
      intro iid r its iid' r' h
      simp only [mandatoryPass] at h
      split at h
      · exact absurd h (by simp)
      · next pid r1 hpick =>
          split at h
          · exact absurd h (by simp)
          · next its0 iid0 r0 hrec =>
              simp only [Except.ok.injEq, Prod.mk.injEq] at h
              obtain ⟨h1, h2, h3⟩ := h
              subst h1; subst h2
              obtain ⟨ih1, ih2, ih3, ih4⟩ := ih hrec
              refine ⟨?_, ?_, ?_, ?_⟩
              · rw [List.map_cons, ih1, List.length_cons, List.range'_succ]
              · rw [ih2, List.length_cons]; omega
              · rw [List.map_cons, ih3, List.map_cons]
              · intro oi hoi
                rcases List.mem_cons.mp hoi with h | h
                · subst h
                  exact ⟨choicesW_ok_mem hpick, rfl⟩
                · exact ih4 oi h

theorem fillPass_ok {pids ws : List Nat} {os : List Order} :
    ∀ {rem iid : Nat} {r : Rng} {its : List OrderItem} {iid' : Nat} {r' : Rng},
    fillPass pids ws os rem iid r = Except.ok (its, iid', r') →
    its.map (·.order_item_id) = List.range' iid rem ∧
    ∀ oi ∈ its, oi.order_id ∈ os.map (·.order_id) ∧ oi.product_id ∈ pids ∧
      oi.subtotal = round2 (oi.unit_price * oi.quantity) := by
  intro rem
  induction rem with
  | zero =>
      intro iid r its iid' r' h
      simp only [fillPass, Except.ok.injEq, Prod.mk.injEq] at h
      obtain ⟨h1, h2, h3⟩ := h
      subst h1
      simp
  | succ n ih =>
      intro iid r its iid' r' h
      simp only [fillPass] at h
      split at h
      · exact absurd h (by simp)
      · next o r1 hord =>
          split at h
          · exact absurd h (by simp)
          · next pid r2 hpick =>
              split at h
              · exact absurd h (by simp)
              · next its0 iid0 r0 hrec =>
                  simp only [Except.ok.injEq, Prod.mk.injEq] at h
                  obtain ⟨h1, h2, h3⟩ := h
                  subst h1; subst h2
                  obtain ⟨ih1, ih2⟩ := ih hrec
                  refine ⟨?_, ?_⟩
                  · rw [List.map_cons, ih1, List.range'_succ]
                  · intro oi hoi
                    rcases List.mem_cons.mp hoi with h | h
                    · subst h
                      exact ⟨List.mem_map_of_mem _ (choice_ok_mem hord),
                             choicesW_ok_mem hpick, rfl⟩
                    · exact ih2 oi h

theorem reconcileAll_ok {items : List OrderItem} :
    ∀ {os os' : List Order}, reconcileAll items os = Except.ok os' →
    os'.map (·.order_id) = os.map (·.order_id) ∧
    ∀ o' ∈ os', o'.total_amount =
      some (round2 (((items.filter fun oi => oi.order_id == o'.order_id).map
        (·.subtotal)).sum)) := by
  intro os
  induction os with
  | nil =>
      intro os' h
      simp only [reconcileAll, Except.ok.injEq] at h
      subst h
      simp
  | cons o rest ih =>
      intro os' h
      simp only [reconcileAll] at h
      split at h
      · exact absurd h (by simp)
      · next t htot =>
          split at h
          · exact absurd h (by simp)
          · next os0 hrec =>
              simp only [Except.ok.injEq] at h
              subst h
              obtain ⟨ih1, ih2⟩ := ih hrec
              refine ⟨by rw [List.map_cons, ih1, List.map_cons], ?_⟩
              intro o' ho'
              rcases List.mem_cons.mp ho' with h | h
              · subst h
                simp only [orderTotal] at htot
                split at htot
                · exact absurd htot (by simp)
                · simp only [Except.ok.injEq] at htot
                  simp [← htot]
              · exact ih2 o' h

/-! ## Destructuring a successful generation run -/

theorem gen_ok_elim {cids pids : List Nat} {M I : Nat} {r : Rng}
    {orders : List Order} {items : List OrderItem}
    (h : generate_orders_and_items cids pids M I r = Except.ok (orders, items)) :
    ∃ os r1 mits iid r2 fits iid2 r3,
      ordersPass cids M r = Except.ok (os, r1) ∧
      mandatoryPass pids (mkWeights pids) os 1 r1 = Except.ok (mits, iid, r2) ∧
      fillPass pids (mkWeights pids) os (I - mits.length) iid r2
        = Except.ok (fits, iid2, r3) ∧
      items = mits ++ fits ∧
      reconcileAll (mits ++ fits) os = Except.ok orders := by
  simp only [generate_orders_and_items] at h
  split at h
  · exact absurd h (by simp)
  · next os r1 h1 =>
      split at h
      · exact absurd h (by simp)
      · next mits iid r2 h2 =>
          split at h
          · exact absurd h (by simp)
          · next fits iid2 r3 h3 =>
              split at h
              · exact absurd h (by simp)
              · next orders' h4 =>
                  simp only [Except.ok.injEq, Prod.mk.injEq] at h
                  obtain ⟨ho, hi⟩ := h
                  subst ho; subst hi
                  exact ⟨os, r1, mits, iid, r2, fits, iid2, r3, h1, h2, h3, rfl, h4⟩

/-- Master invariant of a successful `generate_orders_and_items` run. -/
theorem gen_ok_spec {cids pids : List Nat} {M I : Nat} {r : Rng}
    {orders : List Order} {items : List OrderItem}
    (h : generate_orders_and_items cids pids M I r = Except.ok (orders, items)) :
    orders.map (·.order_id) = List.range' 1 M ∧
    items.map (·.order_item_id) = List.range' 1 (M + (I - M)) ∧
    (∀ oi ∈ items, oi.order_id ∈ orders.map (·.order_id) ∧ oi.product_id ∈ pids ∧
      oi.subtotal = round2 (oi.unit_price * oi.quantity)) ∧
    (∀ o ∈ orders, (∃ oi ∈ items, oi.order_id = o.order_id) ∧
      o.total_amount = some (round2 (((items.filter fun oi =>
        oi.order_id == o.order_id).map (·.subtotal)).sum))) := by
  obtain ⟨os, r1, mits, iid, r2, fits, iid2, r3, h1, h2, h3, hitems, h4⟩ := gen_ok_elim h
  obtain ⟨m1, m2, m3, m4⟩ := mandatoryPass_ok h2
  obtain ⟨f1, f2⟩ := fillPass_ok h3
  obtain ⟨rc1, rc2⟩ := reconcileAll_ok h4
  have hosids : os.map (·.order_id) = List.range' 1 M := ordersPassAux_ok_ids h1
  have hoslen : os.length = M := by
    have hl := congrArg List.length hosids
    simpa using hl
  have hmlen : mits.length = M := by
    have hl := congrArg List.length m1
    simpa [hoslen] using hl
  subst hitems
  refine ⟨by rw [rc1, hosids], ?_, ?_, ?_⟩
  · rw [List.map_append, m1, f1, m2, hoslen, hmlen, List.range'_append_1,
      Nat.add_comm]
  · intro oi hoi
    rcases List.mem_append.mp hoi with hm | hf
    · have hid : oi.order_id ∈ mits.map (·.order_id) := List.mem_map_of_mem _ hm
      rw [m3] at hid
      obtain ⟨hp, hs⟩ := m4 oi hm
      exact ⟨by rw [rc1]; exact hid, hp, hs⟩
    · obtain ⟨hid, hp, hs⟩ := f2 oi hf
      exact ⟨by rw [rc1]; exact hid, hp, hs⟩
  · intro o ho
    refine ⟨?_, rc2 o ho⟩
    have hid : o.order_id ∈ os.map (·.order_id) := by
      rw [← rc1]; exact List.mem_map_of_mem _ ho
    rw [← m3] at hid
    obtain ⟨oi, hoi, hoieq⟩ := List.mem_map.mp hid
    exact ⟨oi, List.mem_append_left _ hoi, hoieq⟩

/-- If more items than orders all reference some order, one order is
referenced at least twice. -/
theorem items_pigeonhole {orders : List Order} {items : List OrderItem}
    (hmem : ∀ oi ∈ items, oi.order_id ∈ orders.map (·.order_id))
    (hlt : orders.length < items.length) :
    ∃ o ∈ orders, 2 ≤ (items.filter fun oi => oi.order_id == o.order_id).length := by
  by_contra hcon
  push_neg at hcon
  have hsub : ∀ x ∈ items.map (·.order_id), x ∈ orders.map (·.order_id) := by
    intro x hx
    obtain ⟨oi, hoi, rfl⟩ := List.mem_map.mp hx
    exact hmem oi hoi
  have hcount : ∀ a : Nat, (items.map (·.order_id)).count a ≤ 1 := by
    intro a
    by_cases ha : a ∈ orders.map (·.order_id)
    · obtain ⟨o, ho, hoa⟩ := List.mem_map.mp ha
      subst hoa
      have h1 : (items.map (·.order_id)).count o.order_id
          = (items.filter fun oi => oi.order_id == o.order_id).length := by
        rw [List.count, List.countP_map, List.countP_eq_length_filter]
        rfl
      rw [h1]
      have h2 := hcon o ho
      omega
    · have hnm : a ∉ items.map (·.order_id) := fun hx => ha (hsub a hx)
      rw [List.count_eq_zero.mpr hnm]
      omega
  have hnodupL : (items.map (·.order_id)).Nodup :=
    List.nodup_iff_count_le_one.mpr hcount
  have h2 : (items.map (·.order_id)).toFinset.card = items.length := by
    rw [List.toFinset_card_of_nodup hnodupL, List.length_map]
  have h3 : (items.map (·.order_id)).toFinset ⊆ (orders.map (·.order_id)).toFinset := by
    intro a haa
    rw [List.mem_toFinset] at *
    exact hsub a haa
  have h4 := Finset.card_le_card h3
  have h5 : (orders.map (·.order_id)).toFinset.card ≤ orders.length := by
    calc (orders.map (·.order_id)).toFinset.card
        ≤ (orders.map (·.order_id)).length := List.toFinset_card_le _
      _ = orders.length := List.length_map _ _
  omega

/-! ## Claim C1: total reconciliation -/

/-- C1: in every batch returned by `generate_orders_and_items`, each item's
subtotal is `round(unit_price * quantity, 2)` (item-level rounding before
summation), and each order's `total_amount` equals `round(sum of the
subtotals of the items whose order_id equals the order's id, 2)`. -/
theorem claim_C1 (cids pids : List Nat) (M I : Nat) (r : Rng)
    (orders : List Order) (items : List OrderItem)
    (h : generate_orders_and_items cids pids M I r = Except.ok (orders, items)) :
    (∀ oi ∈ items, oi.subtotal = round2 (oi.unit_price * oi.quantity)) ∧
    ∀ o ∈ orders, o.total_amount = some (round2 (((items.filter fun oi =>
      oi.order_id == o.order_id).map (·.subtotal)).sum)) := by
  obtain ⟨-, -, h3, h4⟩ := gen_ok_spec h
  exact ⟨fun oi hoi => (h3 oi hoi).2.2, fun o ho => (h4 o ho).2⟩

theorem claim_C1_witness :
    (⟨1, 1, 0, some 50⟩ : Order).total_amount
      = some (round2 ((([⟨1, 1, 1, 1, 50, 50⟩] : List OrderItem).filter fun oi =>
          oi.order_id == (⟨1, 1, 0, some 50⟩ : Order).order_id).map (·.subtotal)).sum) :=
  (claim_C1 [1] [1] 1 1 zeroRng [⟨1, 1, 0, some 50⟩] [⟨1, 1, 1, 1, 50, 50⟩]
    (by with_unfolding_all rfl)).2
    ⟨1, 1, 0, some 50⟩ (List.mem_singleton.mpr rfl)

/-! ## Claim C2: referential integrity -/

/-- C2: with non-empty customer and product id lists, every item in a batch
returned by `generate_orders_and_items` references a generated order id and
a given product id. -/
theorem claim_C2 (cids pids : List Nat) (M I : Nat) (r : Rng)
    (orders : List Order) (items : List OrderItem)
    (_hc : cids ≠ []) (_hp : pids ≠ [])
    (h : generate_orders_and_items cids pids M I r = Except.ok (orders, items)) :
    ∀ oi ∈ items, oi.order_id ∈ orders.map (·.order_id) ∧ oi.product_id ∈ pids := by
  obtain ⟨-, -, h3, -⟩ := gen_ok_spec h
  exact fun oi hoi => ⟨(h3 oi hoi).1, (h3 oi hoi).2.1⟩

theorem claim_C2_witness :
    (⟨1, 1, 1, 1, 50, 50⟩ : OrderItem).order_id
        ∈ ([⟨1, 1, 0, some 50⟩] : List Order).map (·.order_id) ∧
    (⟨1, 1, 1, 1, 50, 50⟩ : OrderItem).product_id ∈ [1] :=
  claim_C2 [1] [1] 1 1 zeroRng [⟨1, 1, 0, some 50⟩] [⟨1, 1, 1, 1, 50, 50⟩]
    (by decide) (by decide) (by with_unfolding_all rfl) ⟨1, 1, 1, 1, 50, 50⟩
    (List.mem_singleton.mpr rfl)

/-! ## Claim C3: every order has at least one item -/

/-- C3: with non-empty id lists and `M ≥ 1`, every order of a returned batch
is referenced by at least one order item, whatever the target item count. -/
theorem claim_C3 (cids pids : List Nat) (M I : Nat) (r : Rng)
    (orders : List Order) (items : List OrderItem)
    (_hc : cids ≠ []) (_hp : pids ≠ []) (_hM : 1 ≤ M)
    (h : generate_orders_and_items cids pids M I r = Except.ok (orders, items)) :
    ∀ o ∈ orders, ∃ oi ∈ items, oi.order_id = o.order_id := by
  obtain ⟨-, -, -, h4⟩ := gen_ok_spec h
  exact fun o ho => (h4 o ho).1

theorem claim_C3_witness :
    ∃ oi ∈ ([⟨1, 1, 1, 1, 50, 50⟩] : List OrderItem),
      oi.order_id = (⟨1, 1, 0, some 50⟩ : Order).order_id :=
  claim_C3 [1] [1] 1 1 zeroRng [⟨1, 1, 0, some 50⟩] [⟨1, 1, 1, 1, 50, 50⟩]
    (by decide) (by decide) (by decide) (by with_unfolding_all rfl)
    ⟨1, 1, 0, some 50⟩ (List.mem_singleton.mpr rfl)

/-! ## Claim C4: dense ids, exact counts, and order sharing -/

/-- C4: a returned batch has order ids exactly `1..M`, item ids exactly the
dense range `1..(M + max(0, I - M))` (so exactly that many items), and
whenever there are more items than orders some order carries more than one
item (in particular for `M = 3`, `I = 10`). -/
theorem claim_C4 (cids pids : List Nat) (M I : Nat) (r : Rng)
    (orders : List Order) (items : List OrderItem)
    (_hc : cids ≠ []) (_hp : pids ≠ []) (_hM : 1 ≤ M)
    (h : generate_orders_and_items cids pids M I r = Except.ok (orders, items)) :
    orders.map (·.order_id) = List.range' 1 M ∧
    items.map (·.order_item_id) = List.range' 1 (M + (I - M)) ∧
    (orders.length < items.length →
      ∃ o ∈ orders, 2 ≤ (items.filter fun oi => oi.order_id == o.order_id).length) := by
  obtain ⟨h1, h2, h3, -⟩ := gen_ok_spec h
  exact ⟨h1, h2, fun hlt => items_pigeonhole (fun oi hoi => (h3 oi hoi).1) hlt⟩

def c4Orders : List Order :=
  [⟨1, 1, 0, some 400⟩, ⟨2, 1, 0, some 50⟩, ⟨3, 1, 0, some 50⟩]

def c4Items : List OrderItem :=
  [⟨1, 1, 1, 1, 50, 50⟩, ⟨2, 2, 1, 1, 50, 50⟩, ⟨3, 3, 1, 1, 50, 50⟩,
   ⟨4, 1, 1, 1, 50, 50⟩, ⟨5, 1, 1, 1, 50, 50⟩, ⟨6, 1, 1, 1, 50, 50⟩,
   ⟨7, 1, 1, 1, 50, 50⟩, ⟨8, 1, 1, 1, 50, 50⟩, ⟨9, 1, 1, 1, 50, 50⟩,
   ⟨10, 1, 1, 1, 50, 50⟩]

theorem claim_C4_witness :
    c4Orders.map (·.order_id) = List.range' 1 3 ∧
    c4Items.map (·.order_item_id) = List.range' 1 (3 + (10 - 3)) ∧
    (c4Orders.length < c4Items.length →
      ∃ o ∈ c4Orders, 2 ≤ (c4Items.filter fun oi =>
        oi.order_id == o.order_id).length) :=
  claim_C4 [1] [1] 3 10 zeroRng c4Orders c4Items
    (by decide) (by decide) (by decide) (by with_unfolding_all rfl)

/-! ## Claim C7: the tiered weight vector -/

/-- C7: the weight list built by `generate_orders_and_items` gives weight 3
to each staple-tier id (`pid ≤ 400`) and weight 1 to every other id, and
the whole procedure (both the mandatory and the fill pass draw through
`choicesW`) equals the procedure run with exactly that weight vector. -/
theorem claim_C7 (cids pids : List Nat) (M I : Nat) (r : Rng) :
    mkWeights pids = (pids.map fun pid => if pid ≤ 400 then 3 else 1) ∧
    generate_orders_and_items cids pids M I r
      = generateWithWeights cids pids
          (pids.map fun pid => if pid ≤ 400 then 3 else 1) M I r := by
  have hw : ∀ l : List Nat, mkWeights l = l.map fun pid => if pid ≤ 400 then 3 else 1 := by
    intro l
    induction l with
    | nil => rfl
    | cons pid rest ih => rw [mkWeights, List.map_cons, ih]
  refine ⟨hw pids, ?_⟩
  rw [← hw pids]
  rfl

/-! ## Clock (in)dependence of the generators -/

theorem generateProductsAux_now (now1 now2 : Nat) :
    ∀ (count pid : Nat) (r : Rng),
    (generateProductsAux now1 count pid r).2 = (generateProductsAux now2 count pid r).2 ∧
    (generateProductsAux now1 count pid r).1.map stripProduct
      = (generateProductsAux now2 count pid r).1.map stripProduct := by
  intro count
  induction count with
  | zero => exact fun pid r => ⟨rfl, rfl⟩
  | succ n ih =>
      intro pid r
      have hgp2 : (generate_product pid now2 r).2 = (generate_product pid now1 r).2 := rfl
      have hgp1 : stripProduct (generate_product pid now2 r).1
          = stripProduct (generate_product pid now1 r).1 := rfl
      obtain ⟨ih1, ih2⟩ := ih (pid + 1) (generate_product pid now1 r).2
      constructor
      · simp only [generateProductsAux]
        rw [hgp2]
        exact ih1
      · simp only [generateProductsAux, List.map_cons]
        rw [hgp2, hgp1, ih2]

theorem generateProductsAux_ids :
    ∀ (count pid now : Nat) (r : Rng),
    (generateProductsAux now count pid r).1.map (·.product_id) = List.range' pid count := by
  intro count
  induction count with
  | zero => intro pid now r; rfl
  | succ n ih =>
      intro pid now r
      simp only [generateProductsAux, List.map_cons, List.range'_succ]
      rw [ih (pid + 1) now _]
      rfl

theorem generateCustomersAux_now
    (provider : String → Rng → (String × String) × Rng) (now1 now2 : Nat) :
    ∀ (count cid : Nat) (r : Rng),
    (generateCustomersAux provider now1 count cid r).2
      = (generateCustomersAux provider now2 count cid r).2 ∧
    (generateCustomersAux provider now1 count cid r).1.map stripCustomer
      = (generateCustomersAux provider now2 count cid r).1.map stripCustomer := by
  intro count
  induction count with
  | zero => exact fun cid r => ⟨rfl, rfl⟩
  | succ n ih =>
      intro cid r
      have hgc2 : (generate_customer provider cid now2 r).2
          = (generate_customer provider cid now1 r).2 := rfl
      have hgc1 : stripCustomer (generate_customer provider cid now2 r).1
          = stripCustomer (generate_customer provider cid now1 r).1 := rfl
      obtain ⟨ih1, ih2⟩ := ih (cid + 1) (generate_customer provider cid now1 r).2
      constructor
      · simp only [generateCustomersAux]
        rw [hgc2]
        exact ih1
      · simp only [generateCustomersAux, List.map_cons]
        rw [hgc2, hgc1, ih2]

theorem generateCustomersAux_ids
    (provider : String → Rng → (String × String) × Rng) :
    ∀ (count cid now : Nat) (r : Rng),
    (generateCustomersAux provider now count cid r).1.map (·.customer_id)
      = List.range' cid count := by
  intro count
  induction count with
  | zero => intro cid now r; rfl
  | succ n ih =>
      intro cid now r
      simp only [generateCustomersAux, List.map_cons, List.range'_succ]
      rw [ih (cid + 1) now _]
      rfl

theorem generateProducts_now (N now1 now2 : Nat) (r : Rng) :
    (generateProducts N now1 r).2 = (generateProducts N now2 r).2 ∧
    (generateProducts N now1 r).1.map stripProduct
      = (generateProducts N now2 r).1.map stripProduct :=
  generateProductsAux_now now1 now2 N 1 r

theorem generateProducts_ids (N now : Nat) (r : Rng) :
    (generateProducts N now r).1.map (·.product_id) = List.range' 1 N :=
  generateProductsAux_ids N 1 now r

theorem generateCustomers_now (provider : String → Rng → (String × String) × Rng)
    (N now1 now2 : Nat) (r : Rng) :
    (generateCustomers provider N now1 r).2 = (generateCustomers provider N now2 r).2 ∧
    (generateCustomers provider N now1 r).1.map stripCustomer
      = (generateCustomers provider N now2 r).1.map stripCustomer :=
  generateCustomersAux_now provider now1 now2 N 1 r

theorem generateCustomers_ids (provider : String → Rng → (String × String) × Rng)
    (N now : Nat) (r : Rng) :
    (generateCustomers provider N now r).1.map (·.customer_id) = List.range' 1 N :=
  generateCustomersAux_ids provider N 1 now r

/-! ## Claim C5: determinism of the pipeline -/

/-- A name provider that ignores the region and the rng state. -/
def constProvider : String → Rng → (String × String) × Rng :=
  fun _ r => (("John", "Doe"), r)

def runProducts (x : Except String RunBatches) : Option (List Product) :=
  x.toOption.map (·.products)

/-- C5 counterexample: two runs of the pipeline with the same seed (the
same draw stream) and the same configuration, executed at different wall
clocks, produce product batches that differ in the `created_at` field
(`datetime.utcnow()` is not drawn from the seeded rng), so the batches are
not byte-identical. -/
theorem claim_C5_counterexample :
    runProducts (pipeline constProvider 1 0 (fun _ => 0))
        = some [⟨1, "Smart TV 43\" Classic", 50, 0, "CSV", 0⟩] ∧
    runProducts (pipeline constProvider 1 1 (fun _ => 0))
        = some [⟨1, "Smart TV 43\" Classic", 50, 0, "CSV", 1⟩] ∧
    runProducts (pipeline constProvider 1 0 (fun _ => 0))
        ≠ runProducts (pipeline constProvider 1 1 (fun _ => 0)) := by
  have h1 : runProducts (pipeline constProvider 1 0 (fun _ => 0))
      = some [⟨1, "Smart TV 43\" Classic", 50, 0, "CSV", 0⟩] := by
    with_unfolding_all rfl
  have h2 : runProducts (pipeline constProvider 1 1 (fun _ => 0))
      = some [⟨1, "Smart TV 43\" Classic", 50, 0, "CSV", 1⟩] := by
    with_unfolding_all rfl
  refine ⟨h1, h2, fun h => ?_⟩
  rw [h1, h2] at h
  simp only [Option.some.injEq, List.cons.injEq] at h
  have hc := congrArg Product.created_at h.1
  simp at hc

/-- C5 amended: with the same seed and configuration, two pipeline runs
agree on everything except the `created_at` wall-clock fields: the order
and order-item batches are identical, and the product and customer batches
are identical after projecting `created_at` away (runs at the same clock
instant are therefore fully identical). -/
theorem claim_C5_amended (provider : String → Rng → (String × String) × Rng)
    (N : Nat) (stream : Nat → Nat) (now1 now2 : Nat) :
    stripRun (pipeline provider N now1 stream)
      = stripRun (pipeline provider N now2 stream) := by
  obtain ⟨hP2, hP1⟩ := generateProducts_now N now1 now2 ⟨stream, 0⟩
  obtain ⟨hC2, hC1⟩ := generateCustomers_now provider N now1 now2
    (generateProducts N now1 ⟨stream, 0⟩).2
  have hpids : (generateProducts N now2 ⟨stream, 0⟩).1.map (·.product_id)
      = (generateProducts N now1 ⟨stream, 0⟩).1.map (·.product_id) := by
    rw [generateProducts_ids, generateProducts_ids]
  have hcids : (generateCustomers provider N now2
        (generateProducts N now1 ⟨stream, 0⟩).2).1.map (·.customer_id)
      = (generateCustomers provider N now1
        (generateProducts N now1 ⟨stream, 0⟩).2).1.map (·.customer_id) := by
    rw [generateCustomers_ids, generateCustomers_ids]
  simp only [pipeline]
  rw [← hP2, ← hC2, hpids, hcids]
  cases hG : generate_orders_and_items
      ((generateCustomers provider N now1
        (generateProducts N now1 ⟨stream, 0⟩).2).1.map (·.customer_id))
      ((generateProducts N now1 ⟨stream, 0⟩).1.map (·.product_id)) N N
      ((generateCustomers provider N now1
        (generateProducts N now1 ⟨stream, 0⟩).2).2) with
  | error e => simp [stripRun]
  | ok p =>
      simp only [stripRun, Except.toOption, Option.map_some']
      rw [hP1, hC1]

/-! ## Claim C9: product synthesis for invalid target counts -/

/-- C9 counterexample: for target counts `N = -3` and `N = 0` the product
synthesis loop runs over the empty `range(1, N + 1)` and returns an empty
batch normally — there is no fail-fast error (the procedure has no failure
path at all), contradicting the claimed explicit failure for `N ≤ 0`. -/
theorem claim_C9_counterexample :
    (productSynthesis (-3) 0 zeroRng).1 = [] ∧
    (productSynthesis 0 0 zeroRng).1 = [] :=
  ⟨rfl, rfl⟩

/-- C9 amended: for `N ≤ 0` the product synthesizer silently produces an
empty batch (no error is raised); for `N > 0` it always succeeds, producing
exactly `N` products with ids `1..N` — there is no failure mode. -/
theorem claim_C9_amended (n : Int) (now : Nat) (r : Rng) :
    (n ≤ 0 → (productSynthesis n now r).1 = []) ∧
    (0 < n → (productSynthesis n now r).1.map (·.product_id)
        = List.range' 1 n.toNat ∧
      (productSynthesis n now r).1.length = n.toNat) := by
  constructor
  · intro hn
    have h0 : n.toNat = 0 := Int.toNat_of_nonpos hn
    simp [productSynthesis, generateProducts, h0, generateProductsAux]
  · intro _
    have hm : (productSynthesis n now r).1.map (·.product_id)
        = List.range' 1 n.toNat := generateProducts_ids n.toNat now r
    refine ⟨hm, ?_⟩
    have hl := congrArg List.length hm
    simpa using hl

theorem claim_C9_witness :
    (productSynthesis 3 0 zeroRng).1.length = (3 : Int).toNat :=
  ((claim_C9_amended 3 0 zeroRng).2 (by decide)).2

/-! ## Claim C6: behaviour on an empty product id list -/

/-- C6 counterexample: with an empty product id list (non-empty customers,
`M = I = 1`) the call does raise — but only at the first weighted product
draw, after the order-skeleton pass has already generated an order, so the
failure is not "before any order has been generated". -/
theorem claim_C6_counterexample :
    generate_orders_and_items [1] [] 1 1 zeroRng = Except.error choicesErr ∧
    skeletonOrders [1] 1 zeroRng = some [⟨1, 1, 0, none⟩] :=
  ⟨rfl, rfl⟩

/-- C6 amended: with an empty product id list, a non-empty customer id list
and `M ≥ 1`, `generate_orders_and_items` raises (the weighted draw on the
empty population) before any order item is generated, and no batch escapes;
however the order-skeleton pass has already built all `M` orders when the
failure occurs, and the error is the draw's exception, not an upfront
validation. -/
theorem claim_C6_amended (cids : List Nat) (M I : Nat) (r : Rng)
    (hc : cids ≠ []) (hM : 1 ≤ M) :
    generate_orders_and_items cids [] M I r = Except.error choicesErr ∧
    ∃ os, skeletonOrders cids M r = some os ∧ os.length = M := by
  obtain ⟨os, r', hop⟩ := ordersPassAux_ok_of_ne hc M 1 r
  have hlen : os.length = M := by
    have hid := ordersPassAux_ok_ids hop
    have hl := congrArg List.length hid
    simpa using hl
  constructor
  · simp only [generate_orders_and_items, ordersPass, hop]
    cases os with
    | nil => simp at hlen; omega
    | cons o rest => simp [mandatoryPass, mkWeights, choicesW]
  · refine ⟨os, ?_, hlen⟩
    unfold skeletonOrders ordersPass
    rw [hop]
    rfl

theorem claim_C6_witness :
    generate_orders_and_items [2] [] 1 5 zeroRng = Except.error choicesErr ∧
    ∃ os, skeletonOrders [2] 1 zeroRng = some os ∧ os.length = 1 :=
  claim_C6_amended [2] 1 5 zeroRng (by decide) (by decide)

/-! ## Claim C10: the sink is truncated before every run's inserts -/

theorem insertOrSkip_of_nodup {α : Type _} (key : α → Nat) :
    ∀ (rows t : List α),
    (rows.map key).Nodup → (∀ x ∈ rows, key x ∉ t.map key) →
    insertOrSkip key t rows = t ++ rows := by
  intro rows
  induction rows with
  | nil => intro t _ _; simp [insertOrSkip]
  | cons row rest ih =>
      intro t hnd hdis
      have hany : t.any (fun x => key x == key row) = false := by
        rw [List.any_eq_false]
        intro x hx
        simp only [beq_iff_eq]
        intro hxe
        exact hdis row (List.mem_cons_self _ _) (hxe ▸ List.mem_map_of_mem key hx)
      have hrest := ih (t ++ [row]) (List.Nodup.of_cons hnd) ?_
      · simp only [insertOrSkip, List.foldl_cons, hany] at *
        rw [if_neg (by simp [hany]), hrest, List.append_assoc]
        rfl
      · intro x hx
        rw [List.map_append, List.mem_append]
        rintro (hmem | hmem)
        · exact hdis x (List.mem_cons_of_mem _ hx) hmem
        · simp only [List.map_cons, List.map_nil, List.mem_singleton] at hmem
          have hne : key row ∉ rest.map key := (List.nodup_cons.mp hnd).1
          exact hne (hmem ▸ List.mem_map_of_mem key hx)

theorem pipeline_ok_ids {provider : String → Rng → (String × String) × Rng}
    {N now : Nat} {stream : Nat → Nat} {b : RunBatches}
    (h : pipeline provider N now stream = Except.ok b) :
    b.products.map (·.product_id) = List.range' 1 N ∧
    b.customers.map (·.customer_id) = List.range' 1 N ∧
    b.orders.map (·.order_id) = List.range' 1 N ∧
    b.order_items.map (·.order_item_id) = List.range' 1 N := by
  simp only [pipeline] at h
  split at h
  · exact absurd h (by simp)
  · next orders order_items hG =>
      simp only [Except.ok.injEq] at h
      subst h
      obtain ⟨g1, g2, -, -⟩ := gen_ok_spec hG
      exact ⟨generateProducts_ids N now _, generateCustomers_ids provider N now _,
        g1, by simpa [Nat.sub_self] using g2⟩

/-- C10: every run of `main` truncates all four tables after table creation
and before any insert, so for any prior database state the tables afterwards
hold exactly the run's freshly generated batches — nothing accumulates
across runs.  (The batches insert cleanly because their primary keys are
dense ranges, hence conflict-free on the empty tables.) -/
theorem claim_C10 (provider : String → Rng → (String × String) × Rng)
    (N now : Nat) (stream : Nat → Nat) (db : DB) (b : RunBatches)
    (h : pipeline provider N now stream = Except.ok b) :
    mainPersist db b
      = ⟨b.customers, b.products, b.orders, b.order_items⟩ := by
  obtain ⟨hp, hc, ho, hi⟩ := pipeline_ok_ids h
  have npd : (b.products.map (·.product_id)).Nodup := by
    rw [hp]; exact List.nodup_range' 1 N
  have ncd : (b.customers.map (·.customer_id)).Nodup := by
    rw [hc]; exact List.nodup_range' 1 N
  have nod : (b.orders.map (·.order_id)).Nodup := by
    rw [ho]; exact List.nodup_range' 1 N
  have nid : (b.order_items.map (·.order_item_id)).Nodup := by
    rw [hi]; exact List.nodup_range' 1 N
  simp only [mainPersist, clear_tables]
  rw [insertOrSkip_of_nodup _ _ _ npd (by simp),
      insertOrSkip_of_nodup _ _ _ ncd (by simp),
      insertOrSkip_of_nodup _ _ _ nod (by simp),
      insertOrSkip_of_nodup _ _ _ nid (by simp)]
  simp

def dirtyDB : DB :=
  ⟨[⟨99, "Stale", "Row", "stale@example.com", "0711111111", "a", "b", "Nairobi", "Kenya", 0⟩],
   [⟨98, "Old Product", 10, 1, "API", 0⟩],
   [⟨97, 99, 5, some 10⟩],
   [⟨96, 97, 98, 1, 10, 10⟩]⟩

def c10Batches : RunBatches :=
  ⟨[⟨1, "Smart TV 43\" Classic", 50, 0, "CSV", 0⟩],
   [⟨1, "John", "Doe", "john.doe1@example.com", "0700000000", "Kileleshwa, Nairobi",
     "P.O. Box 100-00100, Nairobi", "Nairobi", "Kenya", 0⟩],
   [⟨1, 1, 0, some 50⟩],
   [⟨1, 1, 1, 1, 50, 50⟩]⟩

theorem claim_C10_witness :
    mainPersist dirtyDB c10Batches
      = ⟨c10Batches.customers, c10Batches.products, c10Batches.orders,
         c10Batches.order_items⟩ :=
  claim_C10 constProvider 1 0 (fun _ => 0) dirtyDB c10Batches
    (by with_unfolding_all rfl)

/-! ## Decimal-string machinery for the email uniqueness analysis -/

/-- The numeric value of a decimal digit character. -/
def digitVal (c : Char) : Nat := c.toNat - 48

/-- Recover the number denoted by a most-significant-first digit list. -/
def decVal (l : List Char) : Nat := l.foldl (fun a c => a * 10 + digitVal c) 0

theorem digitVal_digitChar {d : Nat} (h : d < 10) :
    digitVal (Nat.digitChar d) = d := by
  interval_cases d <;> rfl

theorem isDigit_digitChar {d : Nat} (h : d < 10) :
    (Nat.digitChar d).isDigit = true := by
  interval_cases d <;> decide

theorem decVal_append (l : List Char) (c : Char) :
    decVal (l ++ [c]) = decVal l * 10 + digitVal c := by
  simp [decVal, List.foldl_append]

theorem decVal_natDecimalAux :
    ∀ fuel n : Nat, n ≤ fuel → decVal (natDecimalAux fuel n) = n := by
  intro fuel
  induction fuel with
  | zero =>
      intro n h
      have h0 : n = 0 := Nat.le_zero.mp h
      subst h0
      rfl
  | succ f ih =>
      intro n h
      by_cases h10 : n < 10
      · simp only [natDecimalAux, if_pos h10]
        show decVal [Nat.digitChar n] = n
        simp [decVal, digitVal_digitChar h10]
      · have hlt : n / 10 < n := Nat.div_lt_self (by omega) (by omega)
        have hd : n / 10 ≤ f := by omega
        rw [natDecimalAux, if_neg h10, decVal_append, ih _ hd,
          digitVal_digitChar (Nat.mod_lt _ (by omega))]
        omega

theorem decVal_natDecimal (n : Nat) : decVal (natDecimal n) = n :=
  decVal_natDecimalAux n n le_rfl

theorem natDecimal_inj {m n : Nat} (h : natDecimal m = natDecimal n) : m = n := by
  rw [← decVal_natDecimal m, ← decVal_natDecimal n, h]

theorem natDecimalAux_digits :
    ∀ fuel n : Nat, ∀ c ∈ natDecimalAux fuel n, c.isDigit = true := by
  intro fuel
  induction fuel with
  | zero => intro n c hc; simp [natDecimalAux] at hc
  | succ f ih =>
      intro n c hc
      by_cases h10 : n < 10
      · simp only [natDecimalAux, if_pos h10, List.mem_singleton] at hc
        exact hc ▸ isDigit_digitChar h10
      · simp only [natDecimalAux, if_neg h10, List.mem_append,
          List.mem_singleton] at hc
        rcases hc with hc | hc
        · exact ih _ c hc
        · exact hc ▸ isDigit_digitChar (Nat.mod_lt _ (by omega))

theorem natDecimal_digits (n : Nat) : ∀ c ∈ natDecimal n, c.isDigit = true :=
  natDecimalAux_digits n n

/-- Two decomposition of a character list into a digit block followed by a
block opening with a non-digit agree on the digit block. -/
theorem digit_blocks_eq : ∀ (a1 a2 b1 b2 : List Char),
    (∀ c ∈ a1, c.isDigit = true) → (∀ c ∈ a2, c.isDigit = true) →
    (∀ c, b1.head? = some c → c.isDigit = false) →
    (∀ c, b2.head? = some c → c.isDigit = false) →
    a1 ++ b1 = a2 ++ b2 → a1 = a2 := by
  intro a1
  induction a1 with
  | nil =>
      intro a2 b1 b2 _ h2 hb1 _ he
      cases a2 with
      | nil => rfl
      | cons y ys =>
          exfalso
          simp only [List.nil_append, List.cons_append] at he
          have hhd : b1.head? = some y := by rw [he]; rfl
          have hdig := h2 y (List.mem_cons_self _ _)
          rw [hb1 y hhd] at hdig
          exact Bool.noConfusion hdig
  | cons x xs ih =>
      intro a2 b1 b2 h1 h2 hb1 hb2 he
      cases a2 with
      | nil =>
          exfalso
          simp only [List.nil_append, List.cons_append] at he
          have hhd : b2.head? = some x := by rw [← he]; rfl
          have hdig := h1 x (List.mem_cons_self _ _)
          rw [hb2 x hhd] at hdig
          exact Bool.noConfusion hdig
      | cons y ys =>
          simp only [List.cons_append, List.cons.injEq] at he
          obtain ⟨hxy, he'⟩ := he
          rw [hxy, ih ys b1 b2 (fun c hc => h1 c (List.mem_cons_of_mem _ hc))
            (fun c hc => h2 c (List.mem_cons_of_mem _ hc)) hb1 hb2 he']

/-! ## Claim C8: email synthesis and uniqueness -/

/-- The email synthesized by `generate_customer`:
`f"{first.lower()}.{last.lower()}{customer_id}@example.com"`. -/
def mkEmail (fn ln : String) (cid : Nat) : String :=
  lowerStr fn ++ "." ++ lowerStr ln ++ natStr cid ++ "@example.com"

theorem mkEmail_data (fn ln : String) (cid : Nat) :
    (mkEmail fn ln cid).data
      = ((fn.data.map Char.toLower ++ '.' :: ln.data.map Char.toLower)
          ++ natDecimal cid) ++ "@example.com".data := by
  simp only [mkEmail, String.data_append, lowerStr, natStr]
  simp [List.append_assoc]

/-- The last character of `first.lower() ++ "." ++ last.lower()` is not a
digit when the lower-cased last name is digit-free (if the last name is
empty it is the dot itself). -/
theorem head_reverse_nondigit (f l : List Char)
    (hl : ∀ c ∈ l, c.isDigit = false) :
    ∀ c, (f ++ '.' :: l).reverse.head? = some c → c.isDigit = false := by
  intro c hc
  rw [List.reverse_append, List.reverse_cons, List.append_assoc] at hc
  cases hrev : l.reverse with
  | nil =>
      rw [hrev] at hc
      simp only [List.nil_append, List.singleton_append, List.head?_cons,
        Option.some.injEq] at hc
      rw [← hc]
      decide
  | cons d ds =>
      rw [hrev] at hc
      simp only [List.cons_append, List.head?_cons, Option.some.injEq] at hc
      have hdl : d ∈ l := List.mem_reverse.mp (hrev ▸ List.mem_cons_self _ _)
      rw [← hc]
      exact hl d hdl

/-- Emails of two customers with distinct ids differ, provided the
lower-cased last names contain no digit characters. -/
theorem mkEmail_inj (fn1 ln1 fn2 ln2 : String) (m n : Nat)
    (h1 : ∀ c ∈ (lowerStr ln1).data, c.isDigit = false)
    (h2 : ∀ c ∈ (lowerStr ln2).data, c.isDigit = false)
    (hmn : m ≠ n) : mkEmail fn1 ln1 m ≠ mkEmail fn2 ln2 n := by
  intro he
  apply hmn
  have hd := congrArg String.data he
  rw [mkEmail_data, mkEmail_data] at hd
  have hd2 := List.append_cancel_right hd
  have hrev : (natDecimal m).reverse
        ++ (fn1.data.map Char.toLower ++ '.' :: ln1.data.map Char.toLower).reverse
      = (natDecimal n).reverse
        ++ (fn2.data.map Char.toLower ++ '.' :: ln2.data.map Char.toLower).reverse := by
    rw [← List.reverse_append, ← List.reverse_append, hd2]
  have hbl := digit_blocks_eq (natDecimal m).reverse (natDecimal n).reverse
    (fn1.data.map Char.toLower ++ '.' :: ln1.data.map Char.toLower).reverse
    (fn2.data.map Char.toLower ++ '.' :: ln2.data.map Char.toLower).reverse
    (fun c hc => natDecimal_digits m c (List.mem_reverse.mp hc))
    (fun c hc => natDecimal_digits n c (List.mem_reverse.mp hc))
    (head_reverse_nondigit _ _ (fun c hc => h1 c (by
      simpa [lowerStr] using hc)))
    (head_reverse_nondigit _ _ (fun c hc => h2 c (by
      simpa [lowerStr] using hc)))
    hrev
  exact natDecimal_inj (List.reverse_injective hbl)

/-- Every customer of a generated batch carries the synthesized email. -/
theorem generateCustomersAux_email
    (provider : String → Rng → (String × String) × Rng) (now : Nat) :
    ∀ (count cid : Nat) (r : Rng),
    ∀ c ∈ (generateCustomersAux provider now count cid r).1,
      c.email = mkEmail c.first_name c.last_name c.customer_id := by
  intro count
  induction count with
  | zero => intro cid r c hc; simp [generateCustomersAux] at hc
  | succ n ih =>
      intro cid r c hc
      simp only [generateCustomersAux, List.mem_cons] at hc
      rcases hc with hc | hc
      · subst hc; rfl
      · exact ih (cid + 1) _ c hc

/-- A name provider that returns "b1" as the last name for the first
customer of a run (the provider call at draw position 1) and "b"
afterwards — names a provider is free to return. -/
def c8Provider : String → Rng → (String × String) × Rng :=
  fun _ r => (("a", if r.pos == 1 then "b1" else "b"), r)

def c8Batch : List Customer := (generateCustomers c8Provider 11 0 zeroRng).1

/-- The email of the batch customer with the given id. -/
def c8Email (i : Nat) : Option String :=
  (c8Batch.find? (fun c => c.customer_id == i)).map (·.email)

/-- C8 counterexample: in the batch over ids 1..11 with the provider above,
customer 1 (names "a", "b1") and customer 11 (names "a", "b") — two
distinct customers — receive the same email "a.b11@example.com", so
uniqueness is not guaranteed by construction for every choice of names. -/
theorem claim_C8_counterexample :
    c8Email 1 = some "a.b11@example.com" ∧
    c8Email 11 = some "a.b11@example.com" ∧ (1 : Nat) ≠ 11 :=
  ⟨rfl, rfl, by decide⟩

/-- C8 amended: every customer's email is the lower-cased first name, a
dot, the lower-cased last name, the decimal id and the domain; two batch
customers with distinct ids have distinct emails provided the lower-cased
last names contain no digit characters (names with trailing digits can
collide, as the counterexample shows). -/
theorem claim_C8_amended (provider : String → Rng → (String × String) × Rng)
    (N now : Nat) (r : Rng) (c1 c2 : Customer)
    (hm1 : c1 ∈ (generateCustomers provider N now r).1)
    (hm2 : c2 ∈ (generateCustomers provider N now r).1)
    (hid : c1.customer_id ≠ c2.customer_id)
    (hd1 : ∀ ch ∈ (lowerStr c1.last_name).data, ch.isDigit = false)
    (hd2 : ∀ ch ∈ (lowerStr c2.last_name).data, ch.isDigit = false) :
    c1.email = mkEmail c1.first_name c1.last_name c1.customer_id ∧
    c2.email = mkEmail c2.first_name c2.last_name c2.customer_id ∧
    c1.email ≠ c2.email := by
  have he1 := generateCustomersAux_email provider now N 1 r c1 hm1
  have he2 := generateCustomersAux_email provider now N 1 r c2 hm2
  refine ⟨he1, he2, ?_⟩
  rw [he1, he2]
  exact mkEmail_inj _ _ _ _ _ _ hd1 hd2 hid

theorem claim_C8_witness :
    ("john.doe1@example.com" : String) ≠ "john.doe2@example.com" :=
  (claim_C8_amended constProvider 2 0 zeroRng
    ⟨1, "John", "Doe", "john.doe1@example.com", "0700000000", "Kileleshwa, Nairobi",
     "P.O. Box 100-00100, Nairobi", "Nairobi", "Kenya", 0⟩
    ⟨2, "John", "Doe", "john.doe2@example.com", "0700000000", "Kileleshwa, Nairobi",
     "P.O. Box 100-00100, Nairobi", "Nairobi", "Kenya", 0⟩
    (by decide) (by decide) (by decide) (by decide) (by decide)).2.2
